import Mathlib

/-!
Verification development for the fastbuka order-lifecycle and authorization
engine (NestJS + Prisma backend).

The embedding models the Prisma data store as explicit lists of rows and each
service method as a pure function from the store (plus arguments) to an
`Except`-result, the successor store, and a trace of effect events
(persistence writes and mail sends, in program order).  Prisma enum values
(`UserRole`, `OrderStatus`, `MealStatus`) are the string constants declared in
`prisma/migrations/20250929120822_init/migration.sql`; `UserRole` is kept as a
string because the TypeScript services compare it with `===` against the two
enum constants and fall through to explicit else-branches on anything else.
Prices are `DOUBLE PRECISION` in the schema; they are modelled as rationals,
which is faithful for every property stated here (the properties are about
which value is stored and that it never changes, not about rounding).
`MailService` (file-upload.service.ts, lines 91-382) is embedded directly:
`sendEmail` skips and resolves `false` when the transporter was never
initialized (mail credentials absent at construction), resolves `true` when
nodemailer's `sendMail` resolves, and otherwise throws
`InternalServerErrorException`; only the construction-time credential
presence and the `sendMail` outcomes are external, and they form the
`MailEnv` parameter.  A throw propagates to the awaiting caller.
-/

namespace Fastbuka

/-- Embeds the Prisma enum UserRole as its runtime string values.
Prisma client enums are plain string constants at runtime. -/
abbrev UserRole := String

def UserRole.CUSTOMER : UserRole := "CUSTOMER"

def UserRole.VENDOR : UserRole := "VENDOR"

/-- Embeds the Prisma enum OrderStatus. -/
inductive OrderStatus where
  | ORDERED
  | PROCESSING
  | DELIVERED
deriving DecidableEq, Repr

/-- Embeds the Prisma enum MealStatus. -/
inductive MealStatus where
  | IN_STOCK
  | OUT_OF_STOCK
deriving DecidableEq, Repr

/-- Embeds the Prisma enum MealCategory. -/
inductive MealCategory where
  | SWALLOW
  | SOUP
  | NIGERIA_DISH
  | INTERCONTINENTAL_DISH
  | PASTRIES
  | LOCAL
deriving DecidableEq, Repr

/-- Embeds the users table row (the fields the analysed services read). -/
structure User where
  id : String
  email : String
  role : UserRole
deriving DecidableEq, Repr

/-- Embeds the meals table row. -/
structure Meal where
  id : String
  name : String
  description : String
  price : ℚ
  imageUrl : String
  status : MealStatus
  categories : List MealCategory
  vendorId : String
deriving DecidableEq, Repr

/-- Embeds the orders table row.  createdAt is an abstract timestamp. -/
structure Order where
  id : String
  quantity : ℕ
  totalPrice : ℚ
  status : OrderStatus
  createdAt : ℕ
  customerId : String
  vendorId : String
  mealId : String
deriving DecidableEq, Repr

/-- The persistent store: the three tables the analysed services touch. -/
structure Db where
  users : List User
  meals : List Meal
  orders : List Order
deriving DecidableEq, Repr

def Db.findUser (db : Db) (id : String) : Option User :=
  db.users.find? (fun u => u.id == id)

def Db.findMeal (db : Db) (id : String) : Option Meal :=
  db.meals.find? (fun m => m.id == id)

def Db.findOrder (db : Db) (id : String) : Option Order :=
  db.orders.find? (fun o => o.id == id)

/-- Embeds the NestJS exceptions thrown by the services (orders and meals
services, and MailService.sendEmail), plus the failure mode of a Prisma
relation that does not resolve. -/
inductive ServiceError where
  | NotFoundException (msg : String)
  | ForbiddenException (msg : String)
  | BadRequestException (msg : String)
  | InternalServerErrorException (msg : String)
  | RelationMissing
deriving DecidableEq, Repr

/-- Effect events, recorded in program order: the persistence writes, the
MailService dispatch calls (each carrying the order snapshot it was given),
and the emails that actually left through nodemailer (with their subject
line); a skipped send produces a dispatch event but no emailSent event. -/
inductive Event where
  | orderCreated (o : Order)
  | statusWritten (orderId : String) (s : OrderStatus)
  | sendOrderInvoice (email : String) (snapshot : Order)
  | sendOrderStatusUpdate (email : String) (snapshot : Order) (label : String)
  | sendDeliveryNotification (email : String) (snapshot : Order)
  | emailSent (toAddr : String) (subject : String)
deriving DecidableEq, Repr

/-- The external environment of MailService (file-upload.service.ts, lines
95-157): whether MAIL_USER and MAIL_PASSWORD were present when the
constructor ran initializeTransporter (otherwise the transporter field
stays undefined), and for each recipient/subject pair whether nodemailer's
transporter.sendMail rejects. -/
structure MailEnv where
  credentialsPresent : Bool
  smtpRejects : String → String → Bool

/-- The environment of a fully working mail channel: the transporter was
initialized and every sendMail resolves. -/
def mailEnvOk : MailEnv :=
  { credentialsPresent := true, smtpRejects := fun _ _ => false }

/-- Embeds the subject fragment order.id.slice(-8).toUpperCase() used by
every MailService subject line: the last eight characters of the id,
uppercased. -/
def orderShortId (o : Order) : String :=
  (String.mk ((o.id.data.reverse.take 8).reverse)).toUpper

namespace MailService

/-- Embeds MailService.sendEmail (file-upload.service.ts, lines 128-157):
with no transporter it logs and resolves false without sending; otherwise
it awaits transporter.sendMail and resolves true, or wraps a rejection in
InternalServerErrorException.  The result pairs the resolved value with the
emails that actually left. -/
def sendEmail (env : MailEnv) (toAddr subject : String) :
    Except ServiceError Bool × List Event :=
  if env.credentialsPresent = false then
    (.ok false, [])
  else if env.smtpRejects toAddr subject then
    (.error (.InternalServerErrorException "Failed to send email"), [])
  else
    (.ok true, [Event.emailSent toAddr subject])

/-- Embeds MailService.sendOrderInvoice (lines 159-211): renders the
invoice for the given order snapshot and delegates to sendEmail with
subject Order Invoice #shortId.  The dispatch event records the call. -/
def sendOrderInvoice (env : MailEnv) (toAddr : String) (order : Order) :
    Except ServiceError Bool × List Event :=
  let r := sendEmail env toAddr ("Order Invoice #" ++ orderShortId order)
  (r.1, Event.sendOrderInvoice toAddr order :: r.2)

/-- Embeds MailService.sendOrderStatusUpdate (lines 213-282): renders the
status-update body for the snapshot and label and delegates to sendEmail
with subject Order Update - #shortId. -/
def sendOrderStatusUpdate (env : MailEnv) (toAddr : String) (order : Order)
    (label : String) : Except ServiceError Bool × List Event :=
  let r := sendEmail env toAddr ("Order Update - #" ++ orderShortId order)
  (r.1, Event.sendOrderStatusUpdate toAddr order label :: r.2)

/-- Embeds MailService.sendDeliveryNotification (lines 284-333): renders
the delivery confirmation for the snapshot and delegates to sendEmail with
subject Order Delivered - #shortId. -/
def sendDeliveryNotification (env : MailEnv) (toAddr : String) (order : Order) :
    Except ServiceError Bool × List Event :=
  let r := sendEmail env toAddr ("Order Delivered - #" ++ orderShortId order)
  (r.1, Event.sendDeliveryNotification toAddr order :: r.2)

end MailService

/-- Embeds CreateOrderDto (create-order.dto.ts). -/
structure CreateOrderDto where
  mealId : String
  quantity : ℕ
deriving DecidableEq, Repr

/-- Embeds UpdateOrderStatusDto; IsEnum validation is the type itself. -/
structure UpdateOrderStatusDto where
  status : OrderStatus
deriving DecidableEq, Repr

/-- An order together with its resolved relations, as returned by the
Prisma include clauses in OrdersService.create. -/
structure OrderDetail where
  order : Order
  customer : User
  vendor : User
  meal : Meal
deriving DecidableEq, Repr

/-- Resolves the relations named by the foreign keys of an order row. -/
def Db.resolveOrder (db : Db) (o : Order) : Option OrderDetail := do
  let customer ← db.findUser o.customerId
  let vendor ← db.findUser o.vendorId
  let meal ← db.findMeal o.mealId
  pure { order := o, customer := customer, vendor := vendor, meal := meal }

namespace OrdersService

/-- Embeds OrdersService.create (orders.service.ts, lines 19-60): look up the
meal, reject when absent or not IN_STOCK, compute totalPrice, persist the
order (the schema default makes its status ORDERED), then await one invoice
send to the customer and one to the vendor; the resolved boolean of each
send is discarded and a throw propagates.  newId and now stand for the id
and createdAt that the store generates for the new row. -/
def create (db : Db) (dto : CreateOrderDto) (customerId : String)
    (newId : String) (now : ℕ) (env : MailEnv) :
    Except ServiceError OrderDetail × Db × List Event :=
  match db.findMeal dto.mealId with
  | none => (.error (.NotFoundException "Meal not found"), db, [])
  | some meal =>
    if meal.status ≠ MealStatus.IN_STOCK then
      (.error (.BadRequestException "Meal is out of stock"), db, [])
    else
      let totalPrice : ℚ := meal.price * (dto.quantity : ℚ)
      let o : Order :=
        { id := newId, quantity := dto.quantity, totalPrice := totalPrice,
          status := OrderStatus.ORDERED, createdAt := now,
          customerId := customerId, vendorId := meal.vendorId,
          mealId := dto.mealId }
      match db.resolveOrder o with
      | none => (.error .RelationMissing, db, [])
      | some detail =>
        let db1 : Db := { db with orders := db.orders ++ [o] }
        match MailService.sendOrderInvoice env detail.customer.email o with
        | (.error e, es1) => (.error e, db1, Event.orderCreated o :: es1)
        | (.ok _, es1) =>
          match MailService.sendOrderInvoice env detail.vendor.email o with
          | (.error e, es2) =>
              (.error e, db1, Event.orderCreated o :: (es1 ++ es2))
          | (.ok _, es2) =>
              (.ok detail, db1, Event.orderCreated o :: (es1 ++ es2))

/-- Embeds OrdersService.findAll (orders.service.ts, lines 62-102): filter by
customerId for the CUSTOMER role and by vendorId otherwise, ordered by
createdAt descending.  The include clause only selects fields of the related
rows, so the result is modelled as the order rows themselves. -/
def findAll (db : Db) (userId : String) (userRole : UserRole) : List Order :=
  let wherePred : Order → Bool :=
    if userRole = UserRole.CUSTOMER then
      fun o => o.customerId == userId
    else
      fun o => o.vendorId == userId
  (db.orders.filter wherePred).mergeSort (fun a b => b.createdAt ≤ a.createdAt)

/-- Embeds OrdersService.findOne (orders.service.ts, lines 104-131).  The
authorization decisions read only the scalar foreign-key fields of the row,
so the result is modelled as the order row. -/
def findOne (db : Db) (id : String) (userId : String) (userRole : UserRole) :
    Except ServiceError Order :=
  match db.findOrder id with
  | none => .error (.NotFoundException "Order not found")
  | some order =>
    if userRole = UserRole.CUSTOMER then
      if order.customerId ≠ userId then
        .error (.ForbiddenException "Access denied to this order")
      else
        .ok order
    else if userRole = UserRole.VENDOR then
      if order.vendorId ≠ userId then
        .error (.ForbiddenException "Access denied to this order")
      else
        .ok order
    else
      .error (.ForbiddenException "Invalid role for accessing orders")

/-- Embeds OrdersService.updateStatus (orders.service.ts, lines 133-194):
look up the order (NotFound when absent), apply the two role checks, persist
the new status, then await the status-dependent notification sends built
from the snapshot read before the write, and return the updated row. -/
def updateStatus (db : Db) (id : String) (dto : UpdateOrderStatusDto)
    (userId : String) (userRole : UserRole) (env : MailEnv) :
    Except ServiceError Order × Db × List Event :=
  let status := dto.status
  match db.findOrder id with
  | none => (.error (.NotFoundException "Order not found"), db, [])
  | some order =>
    if userRole = UserRole.CUSTOMER ∧ status ≠ OrderStatus.DELIVERED then
      (.error (.ForbiddenException "Customers can only mark orders as delivered"),
        db, [])
    else if userRole = UserRole.VENDOR ∧ order.vendorId ≠ userId then
      (.error (.ForbiddenException "You can only update orders for your meals"),
        db, [])
    else
      let updatedOrder : Order := { order with status := status }
      let newOrders :=
        db.orders.map (fun o => if o.id == id then { o with status := status } else o)
      let db1 : Db := { db with orders := newOrders }
      let w := Event.statusWritten id status
      if status = OrderStatus.PROCESSING then
        match db.findUser order.customerId with
        | none => (.error .RelationMissing, db1, [w])
        | some customer =>
          match MailService.sendOrderStatusUpdate env customer.email order "Processing" with
          | (.error e, es) => (.error e, db1, w :: es)
          | (.ok _, es) => (.ok updatedOrder, db1, w :: es)
      else if status = OrderStatus.DELIVERED then
        match db.findUser order.customerId with
        | none => (.error .RelationMissing, db1, [w])
        | some customer =>
          match MailService.sendDeliveryNotification env customer.email order with
          | (.error e, es1) => (.error e, db1, w :: es1)
          | (.ok _, es1) =>
            match db.findUser order.vendorId with
            | none => (.error .RelationMissing, db1, w :: es1)
            | some vendor =>
              match MailService.sendDeliveryNotification env vendor.email order with
              | (.error e, es2) => (.error e, db1, w :: (es1 ++ es2))
              | (.ok _, es2) => (.ok updatedOrder, db1, w :: (es1 ++ es2))
      else
        (.ok updatedOrder, db1, [w])

end OrdersService

/-- Embeds CreateMealDto (create-meal.dto.ts). -/
structure CreateMealDto where
  name : String
  description : String
  price : ℚ
  imageUrl : String
  categories : List MealCategory
  status : MealStatus
deriving DecidableEq, Repr

/-- Embeds UpdateMealDto: every field optional. -/
structure UpdateMealDto where
  name : Option String := none
  description : Option String := none
  price : Option ℚ := none
  imageUrl : Option String := none
  categories : Option (List MealCategory) := none
  status : Option MealStatus := none
deriving DecidableEq, Repr

/-- Applies an UpdateMealDto to a meal row, as prisma.meal.update does with
the spread dto: only the fields present in the dto change; the dto has no
vendorId field, so vendorId cannot change. -/
def Meal.applyUpdate (m : Meal) (dto : UpdateMealDto) : Meal :=
  { m with
    name := dto.name.getD m.name,
    description := dto.description.getD m.description,
    price := dto.price.getD m.price,
    imageUrl := dto.imageUrl.getD m.imageUrl,
    categories := dto.categories.getD m.categories,
    status := dto.status.getD m.status }

namespace MealsService

/-- Embeds MealsService.create (meals.service.ts, lines 20-27). -/
def create (db : Db) (dto : CreateMealDto) (vendorId : String) (newId : String) :
    Meal × Db :=
  let m : Meal :=
    { id := newId, name := dto.name, description := dto.description,
      price := dto.price, imageUrl := dto.imageUrl, status := dto.status,
      categories := dto.categories, vendorId := vendorId }
  (m, { db with meals := db.meals ++ [m] })

/-- Embeds MealsService.update (meals.service.ts, lines 84-106): NotFound
when the meal is absent, Forbidden unless the actor has the VENDOR role and
owns the meal, otherwise apply the dto. -/
def update (db : Db) (id : String) (dto : UpdateMealDto)
    (userId : String) (userRole : UserRole) : Except ServiceError Meal × Db :=
  match db.findMeal id with
  | none => (.error (.NotFoundException "Meal not found"), db)
  | some meal =>
    if userRole ≠ UserRole.VENDOR ∨ meal.vendorId ≠ userId then
      (.error (.ForbiddenException "You can only update your own meals"), db)
    else
      let newMeals := db.meals.map (fun m => if m.id == id then m.applyUpdate dto else m)
      (.ok (meal.applyUpdate dto), { db with meals := newMeals })

/-- Embeds MealsService.remove (meals.service.ts, lines 108-124).  The
migration declares ON DELETE CASCADE from orders.mealId to meals.id, so the
delete also removes the orders that reference the meal. -/
def remove (db : Db) (id : String) (userId : String) (userRole : UserRole) :
    Except ServiceError Meal × Db :=
  match db.findMeal id with
  | none => (.error (.NotFoundException "Meal not found"), db)
  | some meal =>
    if userRole ≠ UserRole.VENDOR ∨ meal.vendorId ≠ userId then
      (.error (.ForbiddenException "You can only delete your own meals"), db)
    else
      let newMeals := db.meals.filter (fun m => m.id != id)
      let newOrders := db.orders.filter (fun o => o.mealId != id)
      (.ok meal, { db with meals := newMeals, orders := newOrders })

end MealsService

namespace OrdersController

/-- Modelled from the spec: the RolesGuard and Roles decorator sources are
not among the analysed files; per the spec's HTTP surface, POST /orders is
restricted to the CUSTOMER role, and the guard rejects other roles before
the service runs.  On acceptance the controller calls OrdersService.create
with the authenticated user's id as customerId (orders controller,
create handler). -/
def create (db : Db) (user : User) (dto : CreateOrderDto)
    (newId : String) (now : ℕ) (env : MailEnv) :
    Except ServiceError OrderDetail × Db × List Event :=
  if user.role ≠ UserRole.CUSTOMER then
    (.error (.ForbiddenException "Forbidden resource"), db, [])
  else
    OrdersService.create db dto user.id newId now env

end OrdersController

/-- The mutating operations of the engine, for stating invariants over
arbitrary operation sequences.  Ids and timestamps generated by the store
appear as explicit arguments. -/
inductive Op where
  | createOrder (dto : CreateOrderDto) (customerId : String) (newId : String) (now : ℕ)
  | updateOrderStatus (id : String) (dto : UpdateOrderStatusDto) (userId : String) (userRole : UserRole)
  | createMeal (dto : CreateMealDto) (vendorId : String) (newId : String)
  | updateMeal (id : String) (dto : UpdateMealDto) (userId : String) (userRole : UserRole)
  | removeMeal (id : String) (userId : String) (userRole : UserRole)
deriving DecidableEq, Repr

namespace Engine

/-- The store after one engine operation (the result and trace projected
away; the successor store does not depend on the mail environment, since
every mail send runs after the persistence write). -/
def step (db : Db) (op : Op) : Db :=
  match op with
  | .createOrder dto customerId newId now =>
      (OrdersService.create db dto customerId newId now mailEnvOk).2.1
  | .updateOrderStatus id dto userId userRole =>
      (OrdersService.updateStatus db id dto userId userRole mailEnvOk).2.1
  | .createMeal dto vendorId newId =>
      (MealsService.create db dto vendorId newId).2
  | .updateMeal id dto userId userRole =>
      (MealsService.update db id dto userId userRole).2
  | .removeMeal id userId userRole =>
      (MealsService.remove db id userId userRole).2

/-- The store after a sequence of engine operations. -/
def run (db : Db) (ops : List Op) : Db :=
  ops.foldl step db

/-- An operation cannot introduce a new order row with the given id:
true unless the operation is an order creation using that id. -/
def Op.avoidsOrderId (i : String) : Op → Prop
  | .createOrder _ _ newId _ => newId ≠ i
  | _ => True

instance (i : String) (op : Op) : Decidable (Op.avoidsOrderId i op) := by
  cases op <;> simp [Op.avoidsOrderId] <;> infer_instance

end Engine

section SampleData

/-- Sample vendor account. -/
def uVendor : User := { id := "v1", email := "vendor@fastbuka.test", role := UserRole.VENDOR }

/-- A second vendor account. -/
def uVendor2 : User := { id := "v2", email := "vendor2@fastbuka.test", role := UserRole.VENDOR }

/-- Sample customer account. -/
def uCustomer : User := { id := "c1", email := "customer@fastbuka.test", role := UserRole.CUSTOMER }

/-- A second customer account. -/
def uCustomer2 : User := { id := "c2", email := "customer2@fastbuka.test", role := UserRole.CUSTOMER }

/-- Sample meal owned by uVendor, in stock, price 10. -/
def mJollof : Meal :=
  { id := "m1", name := "Jollof Rice", description := "rice dish", price := 10,
    imageUrl := "img1", status := MealStatus.IN_STOCK,
    categories := [MealCategory.LOCAL], vendorId := "v1" }

/-- Sample out-of-stock meal owned by uVendor. -/
def mSoup : Meal :=
  { id := "m2", name := "Egusi Soup", description := "soup", price := 7,
    imageUrl := "img2", status := MealStatus.OUT_OF_STOCK,
    categories := [MealCategory.SOUP], vendorId := "v1" }

/-- Sample order placed by uCustomer for mJollof. -/
def oOne : Order :=
  { id := "o1", quantity := 2, totalPrice := 20, status := OrderStatus.ORDERED,
    createdAt := 5, customerId := "c1", vendorId := "v1", mealId := "m1" }

/-- A second order, by uCustomer2, later than oOne. -/
def oTwo : Order :=
  { id := "o2", quantity := 1, totalPrice := 10, status := OrderStatus.ORDERED,
    createdAt := 9, customerId := "c2", vendorId := "v1", mealId := "m1" }

/-- Sample store holding the accounts, meals and orders above. -/
def sampleDb : Db :=
  { users := [uCustomer, uCustomer2, uVendor, uVendor2],
    meals := [mJollof, mSoup],
    orders := [oOne, oTwo] }

end SampleData

/-- C6: getOrder fails with NotFound when the orderId does not resolve;
otherwise it returns the order exactly when the actor is the order's
customer (when actorRole is CUSTOMER) or the order's vendor (when actorRole
is VENDOR), and fails with Forbidden in every other case, including
unconditionally for any role other than CUSTOMER or VENDOR. -/
theorem findOne_access_control :
    (∀ (db : Db) (id userId : String) (userRole : UserRole),
      db.findOrder id = none →
      OrdersService.findOne db id userId userRole =
        .error (.NotFoundException "Order not found")) ∧
    (∀ (db : Db) (id userId : String) (order : Order),
      db.findOrder id = some order →
      OrdersService.findOne db id userId UserRole.CUSTOMER =
        (if order.customerId = userId then .ok order
         else .error (.ForbiddenException "Access denied to this order"))) ∧
    (∀ (db : Db) (id userId : String) (order : Order),
      db.findOrder id = some order →
      OrdersService.findOne db id userId UserRole.VENDOR =
        (if order.vendorId = userId then .ok order
         else .error (.ForbiddenException "Access denied to this order"))) ∧
    (∀ (db : Db) (id userId : String) (userRole : UserRole) (order : Order),
      db.findOrder id = some order →
      userRole ≠ UserRole.CUSTOMER → userRole ≠ UserRole.VENDOR →
      OrdersService.findOne db id userId userRole =
        .error (.ForbiddenException "Invalid role for accessing orders")) := by
  refine ⟨?_, ?_, ?_, ?_⟩
  · intro db id userId userRole h
    simp [OrdersService.findOne, h]
  · intro db id userId order h
    by_cases hc : order.customerId = userId
    · simp [OrdersService.findOne, h, hc, UserRole.CUSTOMER]
    · simp [OrdersService.findOne, h, hc, UserRole.CUSTOMER]
  · intro db id userId order h
    by_cases hv : order.vendorId = userId
    · simp [OrdersService.findOne, h, hv, UserRole.VENDOR, UserRole.CUSTOMER]
    · simp [OrdersService.findOne, h, hv, UserRole.VENDOR, UserRole.CUSTOMER]
  · intro db id userId userRole order h hc hv
    simp [OrdersService.findOne, h, hc, hv]

/-- Closed instance of findOne_access_control on the sample store: the
customer reads their own order, a stranger customer is denied, the owning
vendor reads it, and the role string ADMIN is denied unconditionally. -/
theorem findOne_access_control_witness :
    sampleDb.findOrder "o1" = some oOne ∧
    OrdersService.findOne sampleDb "o1" "c1" UserRole.CUSTOMER = .ok oOne ∧
    OrdersService.findOne sampleDb "o1" "c2" UserRole.CUSTOMER =
      .error (.ForbiddenException "Access denied to this order") ∧
    OrdersService.findOne sampleDb "o1" "v1" UserRole.VENDOR = .ok oOne ∧
    OrdersService.findOne sampleDb "o1" "c1" "ADMIN" =
      .error (.ForbiddenException "Invalid role for accessing orders") := by
  have hfind : sampleDb.findOrder "o1" = some oOne := by rfl
  refine ⟨hfind, ?_, ?_, ?_, ?_⟩
  · rw [findOne_access_control.2.1 sampleDb "o1" "c1" oOne hfind]
    simp [oOne]
  · rw [findOne_access_control.2.1 sampleDb "o1" "c2" oOne hfind]
    simp [oOne]
  · rw [findOne_access_control.2.2.1 sampleDb "o1" "v1" oOne hfind]
    simp [oOne]
  · exact findOne_access_control.2.2.2 sampleDb "o1" "c1" "ADMIN" oOne hfind
      (by decide) (by decide)

/-- The store in which the order with the given id carries the new status;
this is the write performed by OrdersService.updateStatus. -/
def Db.writeStatus (db : Db) (id : String) (status : OrderStatus) : Db :=
  let newOrders :=
    db.orders.map (fun o => if o.id == id then { o with status := status } else o)
  { db with orders := newOrders }

/-- Helper: on the success path (order found, both role checks pass, both
relations resolve, every send delivered) updateStatus returns the updated
row, performs the status write, and emits the write followed by the
status-dependent dispatches built from the pre-write snapshot, each
followed by its delivered email. -/
theorem updateStatus_success_run (db : Db) (id : String) (status : OrderStatus)
    (userId : String) (userRole : UserRole) (order : Order) (cu vu : User)
    (hord : db.findOrder id = some order)
    (hcu : db.findUser order.customerId = some cu)
    (hvu : db.findUser order.vendorId = some vu)
    (hrole1 : ¬(userRole = UserRole.CUSTOMER ∧ status ≠ OrderStatus.DELIVERED))
    (hrole2 : ¬(userRole = UserRole.VENDOR ∧ order.vendorId ≠ userId)) :
    OrdersService.updateStatus db id { status := status } userId userRole mailEnvOk =
      (.ok { order with status := status }, db.writeStatus id status,
        Event.statusWritten id status ::
          (match status with
           | OrderStatus.ORDERED => []
           | OrderStatus.PROCESSING =>
               [Event.sendOrderStatusUpdate cu.email order "Processing",
                Event.emailSent cu.email ("Order Update - #" ++ orderShortId order)]
           | OrderStatus.DELIVERED =>
               [Event.sendDeliveryNotification cu.email order,
                Event.emailSent cu.email ("Order Delivered - #" ++ orderShortId order),
                Event.sendDeliveryNotification vu.email order,
                Event.emailSent vu.email ("Order Delivered - #" ++ orderShortId order)])) := by
  cases status
  case ORDERED =>
    have hC : userRole ≠ UserRole.CUSTOMER := fun h => hrole1 ⟨h, by decide⟩
    simp [OrdersService.updateStatus, hord, hcu, hvu, hC, hrole2,
      mailEnvOk, MailService.sendOrderStatusUpdate,
      MailService.sendDeliveryNotification, MailService.sendEmail,
      Db.writeStatus]
  case PROCESSING =>
    have hC : userRole ≠ UserRole.CUSTOMER := fun h => hrole1 ⟨h, by decide⟩
    simp [OrdersService.updateStatus, hord, hcu, hvu, hC, hrole2,
      mailEnvOk, MailService.sendOrderStatusUpdate,
      MailService.sendDeliveryNotification, MailService.sendEmail,
      Db.writeStatus]
  case DELIVERED =>
    simp [OrdersService.updateStatus, hord, hcu, hvu, hrole2,
      mailEnvOk, MailService.sendOrderStatusUpdate,
      MailService.sendDeliveryNotification, MailService.sendEmail,
      Db.writeStatus]

/-- C1: for every existing order, updateStatus by an actor with role
CUSTOMER succeeds exactly when the requested status is DELIVERED (with no
check that the actor is the order's customer), and any other requested
status yields Forbidden; updateStatus by an actor with role VENDOR succeeds
exactly when order.vendorId equals the actor's id, and otherwise yields
Forbidden regardless of the requested status; the NotFound check for a
missing order is evaluated before either role rule. -/
theorem updateStatus_authorization :
    (∀ (db : Db) (id : String) (dto : UpdateOrderStatusDto) (userId : String)
       (userRole : UserRole) (env : MailEnv),
      db.findOrder id = none →
      OrdersService.updateStatus db id dto userId userRole env =
        (.error (.NotFoundException "Order not found"), db, [])) ∧
    (∀ (db : Db) (id : String) (dto : UpdateOrderStatusDto) (userId : String)
       (order : Order) (env : MailEnv),
      db.findOrder id = some order → dto.status ≠ OrderStatus.DELIVERED →
      OrdersService.updateStatus db id dto userId UserRole.CUSTOMER env =
        (.error (.ForbiddenException "Customers can only mark orders as delivered"),
          db, [])) ∧
    (∀ (db : Db) (id userId : String) (order : Order) (cu vu : User),
      db.findOrder id = some order →
      db.findUser order.customerId = some cu →
      db.findUser order.vendorId = some vu →
      (OrdersService.updateStatus db id { status := OrderStatus.DELIVERED }
          userId UserRole.CUSTOMER mailEnvOk).1 =
        .ok { order with status := OrderStatus.DELIVERED }) ∧
    (∀ (db : Db) (id : String) (dto : UpdateOrderStatusDto) (userId : String)
       (order : Order) (env : MailEnv),
      db.findOrder id = some order → order.vendorId ≠ userId →
      OrdersService.updateStatus db id dto userId UserRole.VENDOR env =
        (.error (.ForbiddenException "You can only update orders for your meals"),
          db, [])) ∧
    (∀ (db : Db) (id : String) (status : OrderStatus) (userId : String)
       (order : Order) (cu vu : User),
      db.findOrder id = some order → order.vendorId = userId →
      db.findUser order.customerId = some cu →
      db.findUser order.vendorId = some vu →
      (OrdersService.updateStatus db id { status := status }
          userId UserRole.VENDOR mailEnvOk).1 =
        .ok { order with status := status }) := by
  refine ⟨?_, ?_, ?_, ?_, ?_⟩
  · intro db id dto userId userRole env h
    simp [OrdersService.updateStatus, h]
  · intro db id dto userId order env h hstat
    simp [OrdersService.updateStatus, h, hstat]
  · intro db id userId order cu vu hord hcu hvu
    rw [updateStatus_success_run db id OrderStatus.DELIVERED userId
      UserRole.CUSTOMER order cu vu hord hcu hvu (by simp) (by simp [UserRole.CUSTOMER, UserRole.VENDOR])]
  · intro db id dto userId order env h hown
    have hne : UserRole.VENDOR ≠ UserRole.CUSTOMER := by decide
    simp [OrdersService.updateStatus, h, hown, hne]
  · intro db id status userId order cu vu hord hown hcu hvu
    rw [updateStatus_success_run db id status userId
      UserRole.VENDOR order cu vu hord hcu hvu
      (by simp [UserRole.CUSTOMER, UserRole.VENDOR]) (by simp [hown])]

/-- Closed instance of updateStatus_authorization on the sample store: a
missing order is NotFound for a vendor; a customer marking PROCESSING is
Forbidden; the stranger customer c2 successfully marks order o1 (owned by
customer c1) DELIVERED; vendor v2 is Forbidden on v1's order; vendor v1 sets
any status on its own order. -/
theorem updateStatus_authorization_witness :
    sampleDb.findOrder "missing" = none ∧
    sampleDb.findOrder "o1" = some oOne ∧
    sampleDb.findUser oOne.customerId = some uCustomer ∧
    sampleDb.findUser oOne.vendorId = some uVendor ∧
    OrdersService.updateStatus sampleDb "missing"
        { status := OrderStatus.DELIVERED } "v1" UserRole.VENDOR mailEnvOk =
      (.error (.NotFoundException "Order not found"), sampleDb, []) ∧
    OrdersService.updateStatus sampleDb "o1"
        { status := OrderStatus.PROCESSING } "c1" UserRole.CUSTOMER mailEnvOk =
      (.error (.ForbiddenException "Customers can only mark orders as delivered"),
        sampleDb, []) ∧
    (OrdersService.updateStatus sampleDb "o1"
        { status := OrderStatus.DELIVERED } "c2" UserRole.CUSTOMER mailEnvOk).1 =
      .ok { oOne with status := OrderStatus.DELIVERED } ∧
    OrdersService.updateStatus sampleDb "o1"
        { status := OrderStatus.DELIVERED } "v2" UserRole.VENDOR mailEnvOk =
      (.error (.ForbiddenException "You can only update orders for your meals"),
        sampleDb, []) ∧
    (OrdersService.updateStatus sampleDb "o1"
        { status := OrderStatus.PROCESSING } "v1" UserRole.VENDOR mailEnvOk).1 =
      .ok { oOne with status := OrderStatus.PROCESSING } := by
  have h0 : sampleDb.findOrder "missing" = none := by rfl
  have h1 : sampleDb.findOrder "o1" = some oOne := by rfl
  have h2 : sampleDb.findUser oOne.customerId = some uCustomer := by rfl
  have h3 : sampleDb.findUser oOne.vendorId = some uVendor := by rfl
  refine ⟨h0, h1, h2, h3, ?_, ?_, ?_, ?_, ?_⟩
  · exact updateStatus_authorization.1 sampleDb "missing"
      { status := OrderStatus.DELIVERED } "v1" UserRole.VENDOR mailEnvOk h0
  · exact updateStatus_authorization.2.1 sampleDb "o1"
      { status := OrderStatus.PROCESSING } "c1" oOne mailEnvOk h1 (by decide)
  · exact updateStatus_authorization.2.2.1 sampleDb "o1" "c2" oOne
      uCustomer uVendor h1 h2 h3
  · exact updateStatus_authorization.2.2.2.1 sampleDb "o1"
      { status := OrderStatus.DELIVERED } "v2" oOne mailEnvOk h1 (by decide)
  · exact updateStatus_authorization.2.2.2.2 sampleDb "o1"
      OrderStatus.PROCESSING "v1" oOne uCustomer uVendor h1 (by decide) h2 h3

/-- The order row that OrdersService.create persists for a given meal, dto,
customer, generated id and timestamp. -/
def newOrderRow (meal : Meal) (dto : CreateOrderDto) (customerId newId : String)
    (now : ℕ) : Order :=
  { id := newId, quantity := dto.quantity,
    totalPrice := meal.price * (dto.quantity : ℚ),
    status := OrderStatus.ORDERED, createdAt := now,
    customerId := customerId, vendorId := meal.vendorId, mealId := dto.mealId }

/-- Helper: on the success path (meal present and IN_STOCK, customer and
vendor rows resolve, every send delivered) create persists the new row and
emits the creation write followed by the two invoice dispatches, each
followed by its delivered email. -/
theorem create_success_run (db : Db) (dto : CreateOrderDto)
    (customerId newId : String) (now : ℕ) (meal : Meal) (cu vu : User)
    (hm : db.findMeal dto.mealId = some meal)
    (hs : meal.status = MealStatus.IN_STOCK)
    (hcu : db.findUser customerId = some cu)
    (hvu : db.findUser meal.vendorId = some vu) :
    OrdersService.create db dto customerId newId now mailEnvOk =
      (.ok { order := newOrderRow meal dto customerId newId now,
             customer := cu, vendor := vu, meal := meal },
       { db with orders := db.orders ++ [newOrderRow meal dto customerId newId now] },
       [Event.orderCreated (newOrderRow meal dto customerId newId now),
        Event.sendOrderInvoice cu.email (newOrderRow meal dto customerId newId now),
        Event.emailSent cu.email
          ("Order Invoice #" ++ orderShortId (newOrderRow meal dto customerId newId now)),
        Event.sendOrderInvoice vu.email (newOrderRow meal dto customerId newId now),
        Event.emailSent vu.email
          ("Order Invoice #" ++ orderShortId (newOrderRow meal dto customerId newId now))]) := by
  simp [OrdersService.create, hm, hs, Db.resolveOrder, newOrderRow,
    hcu, hvu, mailEnvOk, MailService.sendOrderInvoice, MailService.sendEmail]

/-- Helper: whatever the mail environment (credentials absent, sendMail
rejecting, or delivering), whenever the meal is present and IN_STOCK and
the relations resolve, the successor store of create holds the new order
row; no mail outcome can undo the persistence that preceded it. -/
theorem create_persists_despite_mail (db : Db) (dto : CreateOrderDto)
    (customerId newId : String) (now : ℕ) (meal : Meal) (cu vu : User)
    (env : MailEnv)
    (hm : db.findMeal dto.mealId = some meal)
    (hs : meal.status = MealStatus.IN_STOCK)
    (hcu : db.findUser customerId = some cu)
    (hvu : db.findUser meal.vendorId = some vu) :
    (OrdersService.create db dto customerId newId now env).2.1.orders =
      db.orders ++ [newOrderRow meal dto customerId newId now] := by
  simp [OrdersService.create, hm, hs, Db.resolveOrder, newOrderRow, hcu, hvu]
  split
  · simp
  · split <;> simp

/-- Helper: with the transporter never initialized (mail credentials absent
at construction) every sendEmail resolves false without throwing and no
email leaves the system, so create still succeeds and its trace holds the
two invoice dispatches but no emailSent event. -/
theorem create_success_no_transporter (db : Db) (dto : CreateOrderDto)
    (customerId newId : String) (now : ℕ) (meal : Meal) (cu vu : User)
    (smtp : String → String → Bool)
    (hm : db.findMeal dto.mealId = some meal)
    (hs : meal.status = MealStatus.IN_STOCK)
    (hcu : db.findUser customerId = some cu)
    (hvu : db.findUser meal.vendorId = some vu) :
    OrdersService.create db dto customerId newId now
        { credentialsPresent := false, smtpRejects := smtp } =
      (.ok { order := newOrderRow meal dto customerId newId now,
             customer := cu, vendor := vu, meal := meal },
       { db with orders := db.orders ++ [newOrderRow meal dto customerId newId now] },
       [Event.orderCreated (newOrderRow meal dto customerId newId now),
        Event.sendOrderInvoice cu.email (newOrderRow meal dto customerId newId now),
        Event.sendOrderInvoice vu.email (newOrderRow meal dto customerId newId now)]) := by
  simp [OrdersService.create, hm, hs, Db.resolveOrder, newOrderRow,
    hcu, hvu, MailService.sendOrderInvoice, MailService.sendEmail]

/-- C3: createOrder fails with NotFound when the mealId does not resolve to
a meal, and fails with InvalidState (BadRequestException) when the resolved
meal's status is not IN_STOCK; in both failure cases the store is returned
unchanged (no Order is created) and the event trace is empty (no
notification is sent). -/
theorem create_failure_no_side_effects :
    (∀ (db : Db) (dto : CreateOrderDto) (customerId newId : String) (now : ℕ)
       (env : MailEnv),
      db.findMeal dto.mealId = none →
      OrdersService.create db dto customerId newId now env =
        (.error (.NotFoundException "Meal not found"), db, [])) ∧
    (∀ (db : Db) (dto : CreateOrderDto) (customerId newId : String) (now : ℕ)
       (env : MailEnv) (meal : Meal),
      db.findMeal dto.mealId = some meal →
      meal.status ≠ MealStatus.IN_STOCK →
      OrdersService.create db dto customerId newId now env =
        (.error (.BadRequestException "Meal is out of stock"), db, [])) := by
  constructor
  · intro db dto customerId newId now env h
    simp [OrdersService.create, h]
  · intro db dto customerId newId now env meal hm hs
    simp [OrdersService.create, hm, hs]

/-- Closed instance of create_failure_no_side_effects on the sample store:
an unknown meal id gives NotFound, and the out-of-stock meal m2 gives the
out-of-stock rejection; both leave the store unchanged with no events. -/
theorem create_failure_no_side_effects_witness :
    sampleDb.findMeal "nope" = none ∧
    sampleDb.findMeal "m2" = some mSoup ∧
    mSoup.status ≠ MealStatus.IN_STOCK ∧
    OrdersService.create sampleDb { mealId := "nope", quantity := 1 }
        "c1" "o9" 11 mailEnvOk =
      (.error (.NotFoundException "Meal not found"), sampleDb, []) ∧
    OrdersService.create sampleDb { mealId := "m2", quantity := 1 }
        "c1" "o9" 11 mailEnvOk =
      (.error (.BadRequestException "Meal is out of stock"), sampleDb, []) := by
  have h0 : sampleDb.findMeal "nope" = none := by rfl
  have h1 : sampleDb.findMeal "m2" = some mSoup := by rfl
  have h2 : mSoup.status ≠ MealStatus.IN_STOCK := by decide
  exact ⟨h0, h1, h2,
    create_failure_no_side_effects.1 sampleDb
      { mealId := "nope", quantity := 1 } "c1" "o9" 11 mailEnvOk h0,
    create_failure_no_side_effects.2 sampleDb
      { mealId := "m2", quantity := 1 } "c1" "o9" 11 mailEnvOk mSoup h1 h2⟩

/-- C4: every successful createOrder triggers exactly two invoice
notifications, one to the customer's email and one to the vendor's email,
and both occur strictly after the order persistence write (with a working
transporter the trace is exactly the creation write, then the customer
dispatch and its delivered email, then the vendor dispatch and its
delivered email); for every mail environment — credentials absent, sendMail
rejecting, or delivering — the successor store contains the new order, so a
notification failure can never leave the order uncreated; and with the
transporter never initialized the sends resolve false, create still
succeeds and no email leaves the system. -/
theorem create_invoice_notifications :
    (∀ (db : Db) (dto : CreateOrderDto) (customerId newId : String) (now : ℕ)
       (meal : Meal) (cu vu : User),
      db.findMeal dto.mealId = some meal →
      meal.status = MealStatus.IN_STOCK →
      db.findUser customerId = some cu →
      db.findUser meal.vendorId = some vu →
      OrdersService.create db dto customerId newId now mailEnvOk =
        (.ok { order := newOrderRow meal dto customerId newId now,
               customer := cu, vendor := vu, meal := meal },
         { db with orders := db.orders ++ [newOrderRow meal dto customerId newId now] },
         [Event.orderCreated (newOrderRow meal dto customerId newId now),
          Event.sendOrderInvoice cu.email (newOrderRow meal dto customerId newId now),
          Event.emailSent cu.email
            ("Order Invoice #" ++ orderShortId (newOrderRow meal dto customerId newId now)),
          Event.sendOrderInvoice vu.email (newOrderRow meal dto customerId newId now),
          Event.emailSent vu.email
            ("Order Invoice #" ++ orderShortId (newOrderRow meal dto customerId newId now))])) ∧
    (∀ (db : Db) (dto : CreateOrderDto) (customerId newId : String) (now : ℕ)
       (meal : Meal) (cu vu : User) (env : MailEnv),
      db.findMeal dto.mealId = some meal →
      meal.status = MealStatus.IN_STOCK →
      db.findUser customerId = some cu →
      db.findUser meal.vendorId = some vu →
      (OrdersService.create db dto customerId newId now env).2.1.orders =
        db.orders ++ [newOrderRow meal dto customerId newId now]) ∧
    (∀ (db : Db) (dto : CreateOrderDto) (customerId newId : String) (now : ℕ)
       (meal : Meal) (cu vu : User) (smtp : String → String → Bool),
      db.findMeal dto.mealId = some meal →
      meal.status = MealStatus.IN_STOCK →
      db.findUser customerId = some cu →
      db.findUser meal.vendorId = some vu →
      OrdersService.create db dto customerId newId now
          { credentialsPresent := false, smtpRejects := smtp } =
        (.ok { order := newOrderRow meal dto customerId newId now,
               customer := cu, vendor := vu, meal := meal },
         { db with orders := db.orders ++ [newOrderRow meal dto customerId newId now] },
         [Event.orderCreated (newOrderRow meal dto customerId newId now),
          Event.sendOrderInvoice cu.email (newOrderRow meal dto customerId newId now),
          Event.sendOrderInvoice vu.email (newOrderRow meal dto customerId newId now)])) := by
  refine ⟨?_, ?_, ?_⟩
  · intro db dto customerId newId now meal cu vu hm hs hcu hvu
    exact create_success_run db dto customerId newId now meal cu vu hm hs hcu hvu
  · intro db dto customerId newId now meal cu vu env hm hs hcu hvu
    exact create_persists_despite_mail db dto customerId newId now meal cu vu
      env hm hs hcu hvu
  · intro db dto customerId newId now meal cu vu smtp hm hs hcu hvu
    exact create_success_no_transporter db dto customerId newId now meal cu vu
      smtp hm hs hcu hvu

/-- Closed instance of create_invoice_notifications on the sample store:
customer c1 orders two portions of meal m1; with a working transporter the
run emits the creation write, then the invoice dispatch and delivered
email for the customer's address, then the same for the vendor's address;
under an environment whose sendMail always rejects the order row is
persisted anyway; and with the transporter never initialized the call
succeeds with both dispatches but no delivered email. -/
theorem create_invoice_notifications_witness :
    sampleDb.findMeal "m1" = some mJollof ∧
    mJollof.status = MealStatus.IN_STOCK ∧
    sampleDb.findUser "c1" = some uCustomer ∧
    sampleDb.findUser mJollof.vendorId = some uVendor ∧
    OrdersService.create sampleDb { mealId := "m1", quantity := 2 }
        "c1" "o3" 12 mailEnvOk =
      (.ok { order := newOrderRow mJollof { mealId := "m1", quantity := 2 } "c1" "o3" 12,
             customer := uCustomer, vendor := uVendor, meal := mJollof },
       { sampleDb with orders := sampleDb.orders ++
           [newOrderRow mJollof { mealId := "m1", quantity := 2 } "c1" "o3" 12] },
       [Event.orderCreated (newOrderRow mJollof { mealId := "m1", quantity := 2 } "c1" "o3" 12),
        Event.sendOrderInvoice uCustomer.email
          (newOrderRow mJollof { mealId := "m1", quantity := 2 } "c1" "o3" 12),
        Event.emailSent uCustomer.email
          ("Order Invoice #" ++
            orderShortId (newOrderRow mJollof { mealId := "m1", quantity := 2 } "c1" "o3" 12)),
        Event.sendOrderInvoice uVendor.email
          (newOrderRow mJollof { mealId := "m1", quantity := 2 } "c1" "o3" 12),
        Event.emailSent uVendor.email
          ("Order Invoice #" ++
            orderShortId (newOrderRow mJollof { mealId := "m1", quantity := 2 } "c1" "o3" 12))]) ∧
    (OrdersService.create sampleDb { mealId := "m1", quantity := 2 }
        "c1" "o3" 12
        { credentialsPresent := true, smtpRejects := fun _ _ => true }).2.1.orders =
      sampleDb.orders ++
        [newOrderRow mJollof { mealId := "m1", quantity := 2 } "c1" "o3" 12] ∧
    OrdersService.create sampleDb { mealId := "m1", quantity := 2 }
        "c1" "o3" 12 { credentialsPresent := false, smtpRejects := fun _ _ => false } =
      (.ok { order := newOrderRow mJollof { mealId := "m1", quantity := 2 } "c1" "o3" 12,
             customer := uCustomer, vendor := uVendor, meal := mJollof },
       { sampleDb with orders := sampleDb.orders ++
           [newOrderRow mJollof { mealId := "m1", quantity := 2 } "c1" "o3" 12] },
       [Event.orderCreated (newOrderRow mJollof { mealId := "m1", quantity := 2 } "c1" "o3" 12),
        Event.sendOrderInvoice uCustomer.email
          (newOrderRow mJollof { mealId := "m1", quantity := 2 } "c1" "o3" 12),
        Event.sendOrderInvoice uVendor.email
          (newOrderRow mJollof { mealId := "m1", quantity := 2 } "c1" "o3" 12)]) := by
  have h0 : sampleDb.findMeal "m1" = some mJollof := by rfl
  have h1 : mJollof.status = MealStatus.IN_STOCK := by rfl
  have h2 : sampleDb.findUser "c1" = some uCustomer := by rfl
  have h3 : sampleDb.findUser mJollof.vendorId = some uVendor := by rfl
  exact ⟨h0, h1, h2, h3,
    create_invoice_notifications.1 sampleDb { mealId := "m1", quantity := 2 }
      "c1" "o3" 12 mJollof uCustomer uVendor h0 h1 h2 h3,
    create_invoice_notifications.2.1 sampleDb { mealId := "m1", quantity := 2 }
      "c1" "o3" 12 mJollof uCustomer uVendor
      { credentialsPresent := true, smtpRejects := fun _ _ => true } h0 h1 h2 h3,
    create_invoice_notifications.2.2 sampleDb { mealId := "m1", quantity := 2 }
      "c1" "o3" 12 mJollof uCustomer uVendor (fun _ _ => false) h0 h1 h2 h3⟩

section TotalPriceInvariant

/-- The invariant tracked for C2: every order row carrying the given id has
the given totalPrice. -/
def totalPriceInv (db : Db) (i : String) (t : ℚ) : Prop :=
  ∀ o ∈ db.orders, o.id = i → o.totalPrice = t

theorem totalPriceInv_append_fresh {l : List Order} {row o : Order}
    {i : String} {t : ℚ}
    (hinv : ∀ x ∈ l, x.id = i → x.totalPrice = t) (hrow : row.id ≠ i)
    (ho : o ∈ l ++ [row]) (hoid : o.id = i) : o.totalPrice = t := by
  rcases List.mem_append.mp ho with h | h
  · exact hinv o h hoid
  · simp only [List.mem_singleton] at h
    subst h
    exact absurd hoid hrow

theorem totalPriceInv_statusMap {l : List Order} {o : Order}
    {id i : String} {s : OrderStatus} {t : ℚ}
    (hinv : ∀ x ∈ l, x.id = i → x.totalPrice = t)
    (ho : o ∈ l.map (fun x => if x.id == id then { x with status := s } else x))
    (hoid : o.id = i) : o.totalPrice = t := by
  rcases List.mem_map.mp ho with ⟨x, hx, rfl⟩
  by_cases h : (x.id == id) = true
  · simp only [if_pos h] at hoid ⊢
    exact hinv x hx hoid
  · simp only [if_neg h] at hoid ⊢
    exact hinv x hx hoid

theorem create_preserves_totalPriceInv (db : Db) (dto : CreateOrderDto)
    (customerId newId : String) (now : ℕ) (env : MailEnv)
    (i : String) (t : ℚ) (hfresh : newId ≠ i)
    (hinv : totalPriceInv db i t) :
    totalPriceInv (OrdersService.create db dto customerId newId now env).2.1 i t := by
  intro o ho hoid
  revert ho
  unfold OrdersService.create
  dsimp only
  repeat' split
  all_goals intro ho
  all_goals first
    | exact hinv o ho hoid
    | exact totalPriceInv_append_fresh hinv hfresh ho hoid

theorem updateStatus_preserves_totalPriceInv (db : Db) (id : String)
    (dto : UpdateOrderStatusDto) (userId : String) (userRole : UserRole)
    (env : MailEnv) (i : String) (t : ℚ)
    (hinv : totalPriceInv db i t) :
    totalPriceInv (OrdersService.updateStatus db id dto userId userRole env).2.1 i t := by
  intro o ho hoid
  revert ho
  unfold OrdersService.updateStatus
  dsimp only
  repeat' split
  all_goals intro ho
  all_goals first
    | exact hinv o ho hoid
    | exact totalPriceInv_statusMap hinv ho hoid

theorem mealsCreate_orders_eq (db : Db) (dto : CreateMealDto)
    (vendorId newId : String) :
    (MealsService.create db dto vendorId newId).2.orders = db.orders := rfl

theorem mealsUpdate_orders_eq (db : Db) (id : String) (dto : UpdateMealDto)
    (userId : String) (userRole : UserRole) :
    (MealsService.update db id dto userId userRole).2.orders = db.orders := by
  unfold MealsService.update
  repeat' split
  all_goals rfl

theorem mealsRemove_preserves_totalPriceInv (db : Db) (id : String)
    (userId : String) (userRole : UserRole) (i : String) (t : ℚ)
    (hinv : totalPriceInv db i t) :
    totalPriceInv (MealsService.remove db id userId userRole).2 i t := by
  intro o ho hoid
  revert ho
  unfold MealsService.remove
  repeat' split
  all_goals intro ho
  all_goals first
    | exact hinv o ho hoid
    | exact hinv o (List.mem_of_mem_filter ho) hoid

theorem step_preserves_totalPriceInv (db : Db) (op : Op) (i : String) (t : ℚ)
    (havoid : Engine.Op.avoidsOrderId i op) (hinv : totalPriceInv db i t) :
    totalPriceInv (Engine.step db op) i t := by
  cases op with
  | createOrder dto customerId newId now =>
      exact create_preserves_totalPriceInv db dto customerId newId now
        mailEnvOk i t havoid hinv
  | updateOrderStatus id dto userId userRole =>
      exact updateStatus_preserves_totalPriceInv db id dto userId userRole
        mailEnvOk i t hinv
  | createMeal dto vendorId newId =>
      intro o ho hoid
      rw [Engine.step, mealsCreate_orders_eq] at ho
      exact hinv o ho hoid
  | updateMeal id dto userId userRole =>
      intro o ho hoid
      rw [Engine.step, mealsUpdate_orders_eq] at ho
      exact hinv o ho hoid
  | removeMeal id userId userRole =>
      exact mealsRemove_preserves_totalPriceInv db id userId userRole i t hinv

theorem run_preserves_totalPriceInv (ops : List Op) :
    ∀ (db : Db) (i : String) (t : ℚ), totalPriceInv db i t →
      (∀ op ∈ ops, Engine.Op.avoidsOrderId i op) →
      totalPriceInv (Engine.run db ops) i t := by
  induction ops with
  | nil => intro db i t hinv _; exact hinv
  | cons op ops ih =>
      intro db i t hinv hav
      exact ih (Engine.step db op) i t
        (step_preserves_totalPriceInv db op i t (hav op (List.mem_cons_self op ops)) hinv)
        (fun op' h => hav op' (List.mem_cons_of_mem op h))

end TotalPriceInvariant

/-- C2: every successful createOrder persists an order whose totalPrice is
the looked-up meal's price times the requested quantity, with the given
customerId, the meal's vendorId, and status ORDERED; and no subsequent
engine operation changes the totalPrice recorded under that order id (the
status update writes only the status field), even when the meal's price is
later edited. -/
theorem order_totalPrice_snapshot :
    (∀ (db : Db) (dto : CreateOrderDto) (customerId newId : String) (now : ℕ)
       (meal : Meal) (cu vu : User),
      db.findMeal dto.mealId = some meal →
      meal.status = MealStatus.IN_STOCK →
      db.findUser customerId = some cu →
      db.findUser meal.vendorId = some vu →
      (OrdersService.create db dto customerId newId now mailEnvOk).2.1.orders =
        db.orders ++ [newOrderRow meal dto customerId newId now] ∧
      (newOrderRow meal dto customerId newId now).totalPrice =
        meal.price * (dto.quantity : ℚ) ∧
      (newOrderRow meal dto customerId newId now).customerId = customerId ∧
      (newOrderRow meal dto customerId newId now).vendorId = meal.vendorId ∧
      (newOrderRow meal dto customerId newId now).status = OrderStatus.ORDERED) ∧
    (∀ (db : Db) (i : String) (t : ℚ) (ops : List Op),
      totalPriceInv db i t →
      (∀ op ∈ ops, Engine.Op.avoidsOrderId i op) →
      totalPriceInv (Engine.run db ops) i t) := by
  constructor
  · intro db dto customerId newId now meal cu vu hm hs hcu hvu
    refine ⟨?_, rfl, rfl, rfl, rfl⟩
    rw [create_success_run db dto customerId newId now meal cu vu hm hs hcu hvu]
  · intro db i t ops hinv hav
    exact run_preserves_totalPriceInv ops db i t hinv hav

/-- Closed instance of order_totalPrice_snapshot: customer c1 orders two
portions of the price-10 meal m1 and the persisted row carries totalPrice
10 * 2 with status ORDERED; and after a run that delivers order o1, edits
the meal price to 99 and creates a fresh order, every row with id o1 still
carries totalPrice 20. -/
theorem order_totalPrice_snapshot_witness :
    sampleDb.findMeal "m1" = some mJollof ∧
    (OrdersService.create sampleDb { mealId := "m1", quantity := 2 }
        "c1" "o3" 12 mailEnvOk).2.1.orders =
      sampleDb.orders ++
        [newOrderRow mJollof { mealId := "m1", quantity := 2 } "c1" "o3" 12] ∧
    (newOrderRow mJollof { mealId := "m1", quantity := 2 } "c1" "o3" 12).totalPrice =
      mJollof.price * ((2 : ℕ) : ℚ) ∧
    totalPriceInv
      (Engine.run sampleDb
        [Op.updateOrderStatus "o1" { status := OrderStatus.DELIVERED } "v1" UserRole.VENDOR,
         Op.updateMeal "m1" { price := some 99 } "v1" UserRole.VENDOR,
         Op.createOrder { mealId := "m1", quantity := 3 } "c2" "o7" 30])
      "o1" 20 := by
  have hm : sampleDb.findMeal "m1" = some mJollof := by rfl
  have h1 : mJollof.status = MealStatus.IN_STOCK := by rfl
  have h2 : sampleDb.findUser "c1" = some uCustomer := by rfl
  have h3 : sampleDb.findUser mJollof.vendorId = some uVendor := by rfl
  have hinv : totalPriceInv sampleDb "o1" 20 := by
    intro o ho hid
    simp only [sampleDb, List.mem_cons, List.not_mem_nil, or_false] at ho
    rcases ho with rfl | rfl
    · rfl
    · exact absurd hid (by decide)
  have hpart := (order_totalPrice_snapshot.1 sampleDb
    { mealId := "m1", quantity := 2 } "c1" "o3" 12 mJollof uCustomer uVendor
    hm h1 h2 h3)
  refine ⟨hm, hpart.1, hpart.2.1, ?_⟩
  refine order_totalPrice_snapshot.2 sampleDb "o1" 20 _ hinv ?_
  intro op hop
  simp only [List.mem_cons, List.not_mem_nil, or_false] at hop
  rcases hop with rfl | rfl | rfl
  · exact trivial
  · exact trivial
  · exact (by decide : ("o7" : String) ≠ "o1")

/-- C5: for every updateStatus call that persists a new status, the event
trace is the status write followed by exactly the status-dependent sends:
one notification to the customer with event label Processing when the new
status is PROCESSING, two delivery-confirmation notifications (customer
then vendor) when it is DELIVERED, and none when it is ORDERED; every send
comes after the status write in the trace (with a working transporter each
dispatch is followed by its delivered email). -/
theorem updateStatus_notifications :
    (∀ (db : Db) (id userId : String) (userRole : UserRole) (order : Order)
       (cu vu : User),
      db.findOrder id = some order →
      db.findUser order.customerId = some cu →
      db.findUser order.vendorId = some vu →
      userRole ≠ UserRole.CUSTOMER →
      ¬(userRole = UserRole.VENDOR ∧ order.vendorId ≠ userId) →
      (OrdersService.updateStatus db id { status := OrderStatus.PROCESSING }
          userId userRole mailEnvOk).2.2 =
        [Event.statusWritten id OrderStatus.PROCESSING,
         Event.sendOrderStatusUpdate cu.email order "Processing",
         Event.emailSent cu.email ("Order Update - #" ++ orderShortId order)]) ∧
    (∀ (db : Db) (id userId : String) (userRole : UserRole) (order : Order)
       (cu vu : User),
      db.findOrder id = some order →
      db.findUser order.customerId = some cu →
      db.findUser order.vendorId = some vu →
      ¬(userRole = UserRole.VENDOR ∧ order.vendorId ≠ userId) →
      (OrdersService.updateStatus db id { status := OrderStatus.DELIVERED }
          userId userRole mailEnvOk).2.2 =
        [Event.statusWritten id OrderStatus.DELIVERED,
         Event.sendDeliveryNotification cu.email order,
         Event.emailSent cu.email ("Order Delivered - #" ++ orderShortId order),
         Event.sendDeliveryNotification vu.email order,
         Event.emailSent vu.email ("Order Delivered - #" ++ orderShortId order)]) ∧
    (∀ (db : Db) (id userId : String) (userRole : UserRole) (order : Order)
       (cu vu : User),
      db.findOrder id = some order →
      db.findUser order.customerId = some cu →
      db.findUser order.vendorId = some vu →
      userRole ≠ UserRole.CUSTOMER →
      ¬(userRole = UserRole.VENDOR ∧ order.vendorId ≠ userId) →
      (OrdersService.updateStatus db id { status := OrderStatus.ORDERED }
          userId userRole mailEnvOk).2.2 =
        [Event.statusWritten id OrderStatus.ORDERED]) := by
  refine ⟨?_, ?_, ?_⟩
  · intro db id userId userRole order cu vu hord hcu hvu hC hV
    rw [updateStatus_success_run db id OrderStatus.PROCESSING userId userRole
      order cu vu hord hcu hvu (fun h => hC h.1) hV]
  · intro db id userId userRole order cu vu hord hcu hvu hV
    rw [updateStatus_success_run db id OrderStatus.DELIVERED userId userRole
      order cu vu hord hcu hvu (fun h => h.2 rfl) hV]
  · intro db id userId userRole order cu vu hord hcu hvu hC hV
    rw [updateStatus_success_run db id OrderStatus.ORDERED userId userRole
      order cu vu hord hcu hvu (fun h => hC h.1) hV]

/-- Closed instance of updateStatus_notifications on the sample store:
vendor v1 marks o1 PROCESSING (one customer mail), customer c1 marks o1
DELIVERED (two delivery mails), vendor v1 re-marks o1 ORDERED (no mail). -/
theorem updateStatus_notifications_witness :
    sampleDb.findOrder "o1" = some oOne ∧
    sampleDb.findUser oOne.customerId = some uCustomer ∧
    sampleDb.findUser oOne.vendorId = some uVendor ∧
    (OrdersService.updateStatus sampleDb "o1" { status := OrderStatus.PROCESSING }
        "v1" UserRole.VENDOR mailEnvOk).2.2 =
      [Event.statusWritten "o1" OrderStatus.PROCESSING,
       Event.sendOrderStatusUpdate uCustomer.email oOne "Processing",
       Event.emailSent uCustomer.email ("Order Update - #" ++ orderShortId oOne)] ∧
    (OrdersService.updateStatus sampleDb "o1" { status := OrderStatus.DELIVERED }
        "c1" UserRole.CUSTOMER mailEnvOk).2.2 =
      [Event.statusWritten "o1" OrderStatus.DELIVERED,
       Event.sendDeliveryNotification uCustomer.email oOne,
       Event.emailSent uCustomer.email ("Order Delivered - #" ++ orderShortId oOne),
       Event.sendDeliveryNotification uVendor.email oOne,
       Event.emailSent uVendor.email ("Order Delivered - #" ++ orderShortId oOne)] ∧
    (OrdersService.updateStatus sampleDb "o1" { status := OrderStatus.ORDERED }
        "v1" UserRole.VENDOR mailEnvOk).2.2 =
      [Event.statusWritten "o1" OrderStatus.ORDERED] := by
  have h1 : sampleDb.findOrder "o1" = some oOne := by rfl
  have h2 : sampleDb.findUser oOne.customerId = some uCustomer := by rfl
  have h3 : sampleDb.findUser oOne.vendorId = some uVendor := by rfl
  have hown : ¬(UserRole.VENDOR = UserRole.VENDOR ∧ oOne.vendorId ≠ "v1") :=
    fun h => h.2 (by decide)
  have hcust : ¬(UserRole.CUSTOMER = UserRole.VENDOR ∧ oOne.vendorId ≠ "c1") :=
    fun h => by exact absurd h.1 (by decide)
  refine ⟨h1, h2, h3, ?_, ?_, ?_⟩
  · exact updateStatus_notifications.1 sampleDb "o1" "v1" UserRole.VENDOR
      oOne uCustomer uVendor h1 h2 h3 (by decide) hown
  · exact updateStatus_notifications.2.1 sampleDb "o1" "c1" UserRole.CUSTOMER
      oOne uCustomer uVendor h1 h2 h3 hcust
  · exact updateStatus_notifications.2.2 sampleDb "o1" "v1" UserRole.VENDOR
      oOne uCustomer uVendor h1 h2 h3 (by decide) hown

/-- The order snapshot a mail event was built from; persistence writes carry
no snapshot. -/
def Event.mailSnapshot : Event → Option Order
  | .orderCreated _ => none
  | .statusWritten _ _ => none
  | .sendOrderInvoice _ s => some s
  | .sendOrderStatusUpdate _ s _ => some s
  | .sendDeliveryNotification _ s => some s
  | .emailSent _ _ => none

/-- C9: for every successful updateStatus call, the notifications are built
from the order snapshot read before the status write, so every mailed
snapshot equals the pre-write row and still carries the old status, while
the value returned to the caller is the updated order carrying the new
status. -/
theorem updateStatus_mails_old_snapshot :
    ∀ (db : Db) (id userId : String) (userRole : UserRole)
      (status : OrderStatus) (order : Order) (cu vu : User),
      db.findOrder id = some order →
      db.findUser order.customerId = some cu →
      db.findUser order.vendorId = some vu →
      ¬(userRole = UserRole.CUSTOMER ∧ status ≠ OrderStatus.DELIVERED) →
      ¬(userRole = UserRole.VENDOR ∧ order.vendorId ≠ userId) →
      (OrdersService.updateStatus db id { status := status }
          userId userRole mailEnvOk).1 =
        .ok { order with status := status } ∧
      (∀ e ∈ (OrdersService.updateStatus db id { status := status }
          userId userRole mailEnvOk).2.2,
        ∀ s, e.mailSnapshot = some s →
          s = order ∧ s.status = order.status) := by
  intro db id userId userRole status order cu vu hord hcu hvu h1 h2
  rw [updateStatus_success_run db id status userId userRole order cu vu
    hord hcu hvu h1 h2]
  refine ⟨rfl, ?_⟩
  intro e he s hs
  cases status <;> simp at he
  · rw [he] at hs
    simp [Event.mailSnapshot] at hs
  · rcases he with he | he | he
    · rw [he] at hs; simp [Event.mailSnapshot] at hs
    · rw [he] at hs; simp [Event.mailSnapshot] at hs; subst hs; exact ⟨rfl, rfl⟩
    · rw [he] at hs; simp [Event.mailSnapshot] at hs
  · rcases he with he | he | he | he | he
    · rw [he] at hs; simp [Event.mailSnapshot] at hs
    · rw [he] at hs; simp [Event.mailSnapshot] at hs; subst hs; exact ⟨rfl, rfl⟩
    · rw [he] at hs; simp [Event.mailSnapshot] at hs
    · rw [he] at hs; simp [Event.mailSnapshot] at hs; subst hs; exact ⟨rfl, rfl⟩
    · rw [he] at hs; simp [Event.mailSnapshot] at hs

/-- Closed instance of updateStatus_mails_old_snapshot: vendor v1 marks the
ORDERED order o1 as PROCESSING; the caller gets the row with the new status
while the mailed snapshot is the pre-write row with the old status. -/
theorem updateStatus_mails_old_snapshot_witness :
    sampleDb.findOrder "o1" = some oOne ∧
    (OrdersService.updateStatus sampleDb "o1" { status := OrderStatus.PROCESSING }
        "v1" UserRole.VENDOR mailEnvOk).1 =
      .ok { oOne with status := OrderStatus.PROCESSING } ∧
    (∀ e ∈ (OrdersService.updateStatus sampleDb "o1"
        { status := OrderStatus.PROCESSING } "v1" UserRole.VENDOR mailEnvOk).2.2,
      ∀ s, e.mailSnapshot = some s → s = oOne ∧ s.status = oOne.status) := by
  have h1 : sampleDb.findOrder "o1" = some oOne := by rfl
  have h2 : sampleDb.findUser oOne.customerId = some uCustomer := by rfl
  have h3 : sampleDb.findUser oOne.vendorId = some uVendor := by rfl
  have hres := updateStatus_mails_old_snapshot sampleDb "o1" "v1"
    UserRole.VENDOR OrderStatus.PROCESSING oOne uCustomer uVendor h1 h2 h3
    (fun h => by exact absurd h.1 (by decide)) (fun h => h.2 (by decide))
  exact ⟨h1, hres.1, hres.2⟩

/-- C7: listOrders returns exactly the orders whose customerId equals the
actor's id when the role is CUSTOMER, and exactly those whose vendorId
equals the actor's id when the role is VENDOR (as the permutation of the
corresponding filter of the store), sorted by creation time descending; it
never returns an order row on which the actor's id is neither the
customerId nor the vendorId. -/
theorem findAll_filter_sorted :
    ∀ (db : Db) (userId : String) (userRole : UserRole),
      (userRole = UserRole.CUSTOMER →
        (OrdersService.findAll db userId userRole).Perm
          (db.orders.filter (fun o => o.customerId == userId))) ∧
      (userRole = UserRole.VENDOR →
        (OrdersService.findAll db userId userRole).Perm
          (db.orders.filter (fun o => o.vendorId == userId))) ∧
      (OrdersService.findAll db userId userRole).Pairwise
        (fun a b => b.createdAt ≤ a.createdAt) ∧
      (∀ o ∈ OrdersService.findAll db userId userRole,
        o.customerId = userId ∨ o.vendorId = userId) := by
  intro db userId userRole
  refine ⟨?_, ?_, ?_, ?_⟩
  · intro h
    simp only [OrdersService.findAll, h, if_pos]
    exact List.mergeSort_perm _ _
  · intro h
    have hne : ¬(userRole = UserRole.CUSTOMER) := by
      rw [h]; decide
    simp only [OrdersService.findAll, if_neg hne]
    exact List.mergeSort_perm _ _
  · have hsorted := @List.sorted_mergeSort Order
      (fun a b => decide (b.createdAt ≤ a.createdAt))
      (fun a b c hab hbc => by
        simp only [decide_eq_true_eq] at hab hbc ⊢
        omega)
      (fun a b => by
        simp only [Bool.or_eq_true, decide_eq_true_eq]
        omega)
    have h := hsorted (db.orders.filter
      (if userRole = UserRole.CUSTOMER then
        (fun o => o.customerId == userId)
      else
        (fun o => o.vendorId == userId)))
    simp only [decide_eq_true_eq] at h
    simpa [OrdersService.findAll] using h
  · intro o ho
    simp only [OrdersService.findAll, List.mem_mergeSort] at ho
    by_cases h : userRole = UserRole.CUSTOMER
    · rw [if_pos h] at ho
      left
      simpa using (List.mem_filter.mp ho).2
    · rw [if_neg h] at ho
      right
      simpa using (List.mem_filter.mp ho).2

/-- Closed instance of findAll_filter_sorted on the sample store for vendor
v1: the listing is a permutation of the vendorId filter, is sorted by
createdAt descending, and every listed row names v1 as customer or vendor. -/
theorem findAll_filter_sorted_witness :
    UserRole.VENDOR = UserRole.VENDOR ∧
    (OrdersService.findAll sampleDb "v1" UserRole.VENDOR).Perm
      (sampleDb.orders.filter (fun o => o.vendorId == "v1")) ∧
    (OrdersService.findAll sampleDb "v1" UserRole.VENDOR).Pairwise
      (fun a b => b.createdAt ≤ a.createdAt) ∧
    (∀ o ∈ OrdersService.findAll sampleDb "v1" UserRole.VENDOR,
      o.customerId = "v1" ∨ o.vendorId = "v1") :=
  ⟨rfl,
   (findAll_filter_sorted sampleDb "v1" UserRole.VENDOR).2.1 rfl,
   (findAll_filter_sorted sampleDb "v1" UserRole.VENDOR).2.2.1,
   (findAll_filter_sorted sampleDb "v1" UserRole.VENDOR).2.2.2⟩

/-- C8: meal update and meal delete fail with NotFound when the meal id does
not resolve; otherwise they succeed exactly when the actor's role is VENDOR
and the meal's vendorId equals the actor's id, and in every other case they
fail with Forbidden with the store unchanged, so only the owning vendor can
mutate or delete a meal. -/
theorem meals_owner_only_mutation :
    (∀ (db : Db) (id : String) (dto : UpdateMealDto) (userId : String)
       (userRole : UserRole),
      db.findMeal id = none →
      MealsService.update db id dto userId userRole =
        (.error (.NotFoundException "Meal not found"), db)) ∧
    (∀ (db : Db) (id : String) (dto : UpdateMealDto) (userId : String)
       (userRole : UserRole) (meal : Meal),
      db.findMeal id = some meal →
      userRole ≠ UserRole.VENDOR ∨ meal.vendorId ≠ userId →
      MealsService.update db id dto userId userRole =
        (.error (.ForbiddenException "You can only update your own meals"), db)) ∧
    (∀ (db : Db) (id : String) (dto : UpdateMealDto) (userId : String)
       (meal : Meal),
      db.findMeal id = some meal → meal.vendorId = userId →
      (MealsService.update db id dto userId UserRole.VENDOR).1 =
        .ok (meal.applyUpdate dto)) ∧
    (∀ (db : Db) (id userId : String) (userRole : UserRole),
      db.findMeal id = none →
      MealsService.remove db id userId userRole =
        (.error (.NotFoundException "Meal not found"), db)) ∧
    (∀ (db : Db) (id userId : String) (userRole : UserRole) (meal : Meal),
      db.findMeal id = some meal →
      userRole ≠ UserRole.VENDOR ∨ meal.vendorId ≠ userId →
      MealsService.remove db id userId userRole =
        (.error (.ForbiddenException "You can only delete your own meals"), db)) ∧
    (∀ (db : Db) (id userId : String) (meal : Meal),
      db.findMeal id = some meal → meal.vendorId = userId →
      (MealsService.remove db id userId UserRole.VENDOR).1 = .ok meal) := by
  refine ⟨?_, ?_, ?_, ?_, ?_, ?_⟩
  · intro db id dto userId userRole h
    simp [MealsService.update, h]
  · intro db id dto userId userRole meal hm hdeny
    simp [MealsService.update, hm, hdeny]
  · intro db id dto userId meal hm hown
    have hallow : ¬(UserRole.VENDOR ≠ UserRole.VENDOR ∨ meal.vendorId ≠ userId) := by
      simp [hown]
    simp [MealsService.update, hm, hallow, hown]
  · intro db id userId userRole h
    simp [MealsService.remove, h]
  · intro db id userId userRole meal hm hdeny
    simp [MealsService.remove, hm, hdeny]
  · intro db id userId meal hm hown
    have hallow : ¬(UserRole.VENDOR ≠ UserRole.VENDOR ∨ meal.vendorId ≠ userId) := by
      simp [hown]
    simp [MealsService.remove, hm, hallow, hown]

/-- Closed instance of meals_owner_only_mutation on the sample store: an
unknown meal id is NotFound; vendor v2 and customer c1 are Forbidden on
v1's meal with the store unchanged; the owner v1 updates and deletes it. -/
theorem meals_owner_only_mutation_witness :
    sampleDb.findMeal "zz" = none ∧
    sampleDb.findMeal "m1" = some mJollof ∧
    MealsService.update sampleDb "zz" {} "v1" UserRole.VENDOR =
      (.error (.NotFoundException "Meal not found"), sampleDb) ∧
    MealsService.update sampleDb "m1" {} "v2" UserRole.VENDOR =
      (.error (.ForbiddenException "You can only update your own meals"), sampleDb) ∧
    MealsService.remove sampleDb "m1" "c1" UserRole.CUSTOMER =
      (.error (.ForbiddenException "You can only delete your own meals"), sampleDb) ∧
    (MealsService.update sampleDb "m1" {} "v1" UserRole.VENDOR).1 =
      .ok (mJollof.applyUpdate {}) ∧
    (MealsService.remove sampleDb "m1" "v1" UserRole.VENDOR).1 = .ok mJollof := by
  have h0 : sampleDb.findMeal "zz" = none := by rfl
  have h1 : sampleDb.findMeal "m1" = some mJollof := by rfl
  exact ⟨h0, h1,
    meals_owner_only_mutation.1 sampleDb "zz" {} "v1" UserRole.VENDOR h0,
    meals_owner_only_mutation.2.1 sampleDb "m1" {} "v2" UserRole.VENDOR
      mJollof h1 (Or.inr (by decide)),
    meals_owner_only_mutation.2.2.2.2.1 sampleDb "m1" "c1" UserRole.CUSTOMER
      mJollof h1 (Or.inl (by decide)),
    meals_owner_only_mutation.2.2.1 sampleDb "m1" {} "v1" mJollof h1 (by decide),
    meals_owner_only_mutation.2.2.2.2.2 sampleDb "m1" "v1" mJollof h1 (by decide)⟩

/-- C10: the service-level createOrder performs no check on the customerId
argument: for every customerId (including the id of the meal's own vendor,
whose role is VENDOR), whenever the meal exists and is IN_STOCK the order
is persisted with that customerId stored verbatim; the CUSTOMER-role
restriction exists only in the HTTP controller layer, which rejects every
non-CUSTOMER caller before the service runs and otherwise delegates to the
service unchanged. -/
theorem create_customerId_unchecked :
    (∀ (db : Db) (dto : CreateOrderDto) (customerId newId : String) (now : ℕ)
       (meal : Meal) (cu vu : User),
      db.findMeal dto.mealId = some meal →
      meal.status = MealStatus.IN_STOCK →
      db.findUser customerId = some cu →
      db.findUser meal.vendorId = some vu →
      (OrdersService.create db dto customerId newId now mailEnvOk).1 =
        .ok { order := newOrderRow meal dto customerId newId now,
              customer := cu, vendor := vu, meal := meal } ∧
      (OrdersService.create db dto customerId newId now mailEnvOk).2.1.orders =
        db.orders ++ [newOrderRow meal dto customerId newId now] ∧
      (newOrderRow meal dto customerId newId now).customerId = customerId) ∧
    (∀ (db : Db) (user : User) (dto : CreateOrderDto) (newId : String)
       (now : ℕ) (env : MailEnv),
      user.role ≠ UserRole.CUSTOMER →
      OrdersController.create db user dto newId now env =
        (.error (.ForbiddenException "Forbidden resource"), db, [])) ∧
    (∀ (db : Db) (user : User) (dto : CreateOrderDto) (newId : String)
       (now : ℕ) (env : MailEnv),
      user.role = UserRole.CUSTOMER →
      OrdersController.create db user dto newId now env =
        OrdersService.create db dto user.id newId now env) := by
  refine ⟨?_, ?_, ?_⟩
  · intro db dto customerId newId now meal cu vu hm hs hcu hvu
    rw [create_success_run db dto customerId newId now meal cu vu hm hs hcu hvu]
    exact ⟨rfl, rfl, rfl⟩
  · intro db user dto newId now env h
    simp [OrdersController.create, h]
  · intro db user dto newId now env h
    simp [OrdersController.create, h]

/-- Closed instance of create_customerId_unchecked on the sample store:
the service persists an order whose customerId is v1 — the meal's own
vendor, an account with role VENDOR — verbatim, while the controller
rejects that same vendor account before the service runs. -/
theorem create_customerId_unchecked_witness :
    sampleDb.findMeal "m1" = some mJollof ∧
    sampleDb.findUser "v1" = some uVendor ∧
    (OrdersService.create sampleDb { mealId := "m1", quantity := 1 }
        "v1" "o8" 14 mailEnvOk).2.1.orders =
      sampleDb.orders ++
        [newOrderRow mJollof { mealId := "m1", quantity := 1 } "v1" "o8" 14] ∧
    (newOrderRow mJollof { mealId := "m1", quantity := 1 } "v1" "o8" 14).customerId =
      "v1" ∧
    uVendor.role ≠ UserRole.CUSTOMER ∧
    OrdersController.create sampleDb uVendor { mealId := "m1", quantity := 1 }
        "o8" 14 mailEnvOk =
      (.error (.ForbiddenException "Forbidden resource"), sampleDb, []) := by
  have h0 : sampleDb.findMeal "m1" = some mJollof := by rfl
  have h1 : mJollof.status = MealStatus.IN_STOCK := by rfl
  have h2 : sampleDb.findUser "v1" = some uVendor := by rfl
  have h3 : sampleDb.findUser mJollof.vendorId = some uVendor := by rfl
  have h4 : uVendor.role ≠ UserRole.CUSTOMER := by decide
  have hmain := create_customerId_unchecked.1 sampleDb
    { mealId := "m1", quantity := 1 } "v1" "o8" 14 mJollof uVendor uVendor
    h0 h1 h2 h3
  exact ⟨h0, h2, hmain.2.1, hmain.2.2, h4,
    create_customerId_unchecked.2.1 sampleDb uVendor
      { mealId := "m1", quantity := 1 } "o8" 14 mailEnvOk h4⟩

end Fastbuka
